import Mathlib

/-!
Shallow embedding of `src/preprocess.py` from the optimization-detector
repository, together with a spec-faithful model of the `BinaryDs` dataset
store (whose source, `binaryds.py`, is not part of the embedded sources:
only its call sites appear in `preprocess.py`).

Bytes are modelled as `Nat`, byte strings as `List Nat`, Python `float`
arithmetic as exact `ℚ` arithmetic, and Python exceptions as an `Except`
monad over the error type `PyErr`.  Non-terminating loops are modelled
with an explicit fuel parameter: a result of `none` means the loop has
not finished within the given fuel, so "`none` for every fuel" expresses
non-termination.
-/

namespace Preprocess

/-- The Python exception kinds raised by the code under study. -/
inductive PyErr where
  | typeError
  | valueError
  | fileNotFoundError
deriving DecidableEq, Repr

/-- Modelled from the spec: the persisted contents of a Dataset Store file
(`binaryds.py` is not under the embedded sources).  Per spec §3 a store file
holds a header recording `features` and `function_granularity` and a mapping
from category id to the ordered sequence of examples. -/
structure StoredDs where
  features : Nat
  function_granularity : Bool
  categories : Nat → List (List Nat)

/-- Modelled from the spec: the in-memory Dataset Store (`BinaryDs`).
Schema fields are unset (`none`) until the first `set_features` /
`set_function_granularity` call or a successful `read` (spec §3 lifecycle). -/
structure BinaryDs where
  features : Option Nat
  function_granularity : Option Bool
  categories : Nat → List (List Nat)

/-- Modelled from the spec: `get(category)` returns the ordered example
sequence for that category, or an empty sequence if the category is
unknown (spec §4.4). -/
def BinaryDs.get (s : BinaryDs) (c : Nat) : List (List Nat) :=
  s.categories c

/-- Modelled from the spec: `set(category, examples)` replaces the stored
sequence for that category with the given sequence (spec §4.4). -/
def BinaryDs.set (s : BinaryDs) (c : Nat) (v : List (List Nat)) : BinaryDs :=
  { s with categories := Function.update s.categories c v }

/-- `read_dataset` (preprocess.py lines 52-78): `dataset.read()` loads the
store from disk, raising `FileNotFoundError` when the file does not exist
(spec §4.4, modelled by `disk = none`).  On a successful read the requested
granularity and feature count are validated against the persisted header,
raising `ValueError` on a mismatch; on `FileNotFoundError` the fresh store
is initialized with the requested `features` and granularity. -/
def read_dataset (disk : Option StoredDs) (function : Bool) (features : Nat) :
    Except PyErr BinaryDs :=
  match disk with
  | some st =>
    if st.function_granularity ≠ function then .error .valueError
    else if st.features ≠ features then .error .valueError
    else .ok ⟨some st.features, some st.function_granularity, st.categories⟩
  | none => .ok ⟨some features, some function, fun _ => []⟩

/-- `os.path.join(path, cur_file)` as used at preprocess.py line 155, for a
relative second component. -/
def pathJoin (path cur : String) : String :=
  path ++ "/" ++ cur

/-- Index of the last `'.'` in a character list, if any. -/
def lastDotIdx (cs : List Char) : Option Nat :=
  ((List.range cs.length).filter fun i => cs.getD i ' ' == '.').getLast?

/-- `os.path.splitext(p)[1]`: the extension of the final path component,
starting at its last dot; a basename whose characters before that dot are
all dots (such as `.bashrc`) has no extension. -/
def splitext_ext (p : String) : String :=
  let base := (p.splitOn "/").getLastD p
  let cs := base.toList
  match lastDotIdx cs with
  | none => ""
  | some i =>
    if (cs.take i).all (fun c => c == '.') then "" else String.mk (cs.drop i)

/-- The inner loop of `gather_files` (preprocess.py lines 154-156):
Python iterates `files` by index while the body appends to the very same
list, so each step both advances the index and grows the list.  `fuel`
bounds the number of loop iterations; `none` means the loop has not
finished within that fuel. -/
def gatherInner (path : String) : Nat → Nat → List String → Option (List String)
  | 0, i, files => if i < files.length then none else some files
  | fuel + 1, i, files =>
    if h : i < files.length then
      gatherInner path fuel (i + 1) (files ++ [pathJoin path (files.get ⟨i, h⟩)])
    else some files

/-- The outer loop of `gather_files` (preprocess.py line 153): each step of
`os.walk` rebinds the variable `files` to the walk entry's filename list
(discarding the previous value) before running the inner loop on it.  The
walk is modelled by the list of per-directory filename lists it yields. -/
def gatherOuter (path : String) (fuel : Nat) :
    List (List String) → List String → Option (List String)
  | [], files => some files
  | names :: rest, _ =>
    match gatherInner path fuel 0 names with
    | none => none
    | some files2 => gatherOuter path fuel rest files2

/-- `gather_files` (preprocess.py lines 134-165) with explicit fuel: run the
walk loops starting from `files = list()`, filter by the extension selected
by `function` (`.txt` when true, `.bin` otherwise), and raise
`FileNotFoundError` when no file passes the filter. -/
def gather_files (path : String) (walk : List (List String)) (function : Bool)
    (fuel : Nat) : Option (Except PyErr (List String)) :=
  match gatherOuter path fuel walk [] with
  | none => none
  | some files =>
    let ext := if function then ".txt" else ".bin"
    let flt := files.filter fun x => splitext_ext x == ext
    if flt.length = 0 then some (.error .fileNotFoundError) else some (.ok flt)

/-- Python's `line.strip('\n')`: remove every leading and trailing newline
character (preprocess.py line 187). -/
def stripNl (s : String) : String :=
  String.mk (((s.toList.dropWhile fun c => c == '\n').reverse.dropWhile
    fun c => c == '\n').reverse)

/-- `read_files_function` (preprocess.py lines 168-191): iterate the lines of
each file in order, strip newlines, skip the sentinel lines `"FF,"`, `""` and
`"[]"`, and collect the remaining lines across all files.  File contents are
supplied by `fileText`, mapping a path to the lines yielded by Python's file
iteration (each still carrying its terminator). -/
def read_files_function (fileText : String → List String)
    (files_list : List String) : List String :=
  (files_list.map fun f =>
    ((fileText f).map stripNl).filter fun l =>
      !(l == "FF," || l == "" || l == "[]")).flatten

/-- The numeric value of one hexadecimal digit, as in `bytes.fromhex`. -/
def hexDigit (c : Char) : Option Nat :=
  if '0' ≤ c ∧ c ≤ '9' then some (c.toNat - '0'.toNat)
  else if 'a' ≤ c ∧ c ≤ 'f' then some (c.toNat - 'a'.toNat + 10)
  else if 'A' ≤ c ∧ c ≤ 'F' then some (c.toNat - 'A'.toNat + 10)
  else none

/-- `bytes.fromhex`: decode pairs of hexadecimal digits, skipping spaces
between bytes; `none` models the `ValueError` raised on a stray character or
an odd number of digits. -/
def fromhexAux : List Char → Option (List Nat)
  | [] => some []
  | ' ' :: rest => fromhexAux rest
  | c1 :: c2 :: rest => do
    let h ← hexDigit c1
    let l ← hexDigit c2
    let r ← fromhexAux rest
    some ((16 * h + l) :: r)
  | [_] => none

/-- `bytes.fromhex` on a string. -/
def pyFromhex (s : String) : Option (List Nat) :=
  fromhexAux s.toList

/-- Python's `x.replace(",", "")`: remove every comma. -/
def removeCommas (s : String) : String :=
  String.mk (s.toList.filter fun c => !(c == ','))

/-- Sequence a list of optional values, failing at the first `none`; models
Python's `list(map(bytes.fromhex, ...))` raising at the first bad string. -/
def traverseOpt {α : Type} : List (Option α) → Option (List α)
  | [] => some []
  | none :: _ => none
  | some a :: t => (traverseOpt t).map fun r => a :: r

/-- `encode_opcodes` (preprocess.py lines 113-131): strip the commas from
each line and hex-decode it with `bytes.fromhex`; a line that fails to
decode raises `ValueError`. -/
def encode_opcodes (func_list : List String) : Except PyErr (List (List Nat)) :=
  match traverseOpt ((func_list.map removeCommas).map pyFromhex) with
  | some r => .ok r
  | none => .error .valueError

/-- `read_files_raw` (preprocess.py lines 194-211): the whole binary content
of each file, in file-list order, is one element of the result.  File
contents are supplied by `fileRaw`, mapping a path to its bytes. -/
def read_files_raw (fileRaw : String → List Nat) (files_list : List String) :
    List (List Nat) :=
  files_list.map fileRaw

/-- Python's `range(start, stop, step)` for a positive step. -/
def pyRange (start stop step : Nat) : List Nat :=
  (List.range ((stop - start + step - 1) / step)).map fun k => start + k * step

/-- Python's list slice `x[i:j]` for nonnegative bounds. -/
def pySlice {α : Type} (x : List α) (i j : Nat) : List α :=
  (x.drop i).take (j - i)

/-- The raw-granularity "chunk then flatten" steps of `read_and_clean_content`
(preprocess.py lines 107-109): `x = [x[i:i + features] for i in
range(0, len(x), features)]` followed by
`x = list(itertools.chain.from_iterable(x))`.  Note that `x` here is the
list of per-file blobs, so the slicing groups whole blobs, and flattening
those groups restores the original list of blobs. -/
def raw_chunk_stage (x : List (List Nat)) (features : Nat) : List (List Nat) :=
  ((pyRange 0 x.length features).map fun i => pySlice x i (i + features)).flatten

/-- `read_and_clean_content` (preprocess.py lines 81-110), the three-argument
function as defined: function granularity reads lines and hex-encodes them;
raw granularity reads whole files and applies the chunk-then-flatten steps. -/
def read_and_clean_content (fileText : String → List String)
    (fileRaw : String → List Nat) (files : List String) (function : Bool)
    (features : Nat) : Except PyErr (List (List Nat)) :=
  if function then
    encode_opcodes (read_files_function fileText files)
  else
    .ok (raw_chunk_stage (read_files_raw fileRaw files) features)

/-- The splitter step of `run_preprocess` (preprocess.py lines 39-41):
`split_index = math.floor(len(data) * split)`, then the prefix
`data[:split_index]` is the run's new training data and the suffix
`data[split_index:]` its new test data. -/
def splitter_stage (data : List (List Nat)) (split : ℚ) :
    List (List Nat) × List (List Nat) :=
  let split_index := (⌊(data.length : ℚ) * split⌋).toNat
  (data.take split_index, data.drop split_index)

/-- The append step of `run_preprocess` (preprocess.py lines 43-48) for one
store: `current = store.get(category); current.extend(new);
store.set(category, current)`. -/
def append_stage (store : BinaryDs) (category : Nat) (new : List (List Nat)) :
    BinaryDs :=
  store.set category (store.get category ++ new)

/-- The train-example count closest to `total * r`, i.e. the nearest integer
(clamped to `ℕ` via `Int.toNat`, a no-op for `0 < r`). -/
def targetCount (r : ℚ) (total : Nat) : Nat :=
  (round ((total : ℚ) * r)).toNat

/-- Modelled from the spec: the per-category action of `BinaryDs.rebalance`
(spec §4.4; `binaryds.py` is not under the embedded sources).  The paired
sequences are adjusted so the train count becomes the achievable count
closest to the target ratio, by moving whole examples from the
over-represented side's tail to the other side. -/
def rebalanceCat (r : ℚ) (tr te : List (List Nat)) :
    List (List Nat) × List (List Nat) :=
  if targetCount r (tr.length + te.length) ≤ tr.length then
    (tr.take (targetCount r (tr.length + te.length)),
     te ++ tr.drop (targetCount r (tr.length + te.length)))
  else
    (tr ++ te.drop (te.length -
       (targetCount r (tr.length + te.length) - tr.length)),
     te.take (te.length -
       (targetCount r (tr.length + te.length) - tr.length)))

/-- Modelled from the spec: `rebalance(other)` (spec §4.4), applied per
category with the run's configured target ratio `r`; returns the adjusted
(train, test) pair of stores. -/
def BinaryDs.rebalance (r : ℚ) (train test : BinaryDs) : BinaryDs × BinaryDs :=
  ({ train with categories := fun c =>
      (rebalanceCat r (train.categories c) (test.categories c)).1 },
   { test with categories := fun c =>
      (rebalanceCat r (train.categories c) (test.categories c)).2 })

/-- The pipeline stages `run_preprocess` can perform, used to trace which
steps a run reaches. -/
inductive Op where
  | gatherOp
  | readDsOp
  | readCleanOp
  | shuffleOp
  | splitOp
  | setCatOp
  | rebalanceOp
  | writeOp
deriving DecidableEq, Repr

/-- The outcome of a `run_preprocess` invocation: the stages it performed, in
order, and either the final (train, test) stores or the exception raised. -/
structure RunResult where
  trace : List Op
  outcome : Except PyErr (BinaryDs × BinaryDs)

/-- The number of parameters of `read_and_clean_content` as defined at
preprocess.py line 81: `(files, function, features)`, all required, no
defaults. -/
def read_and_clean_content_paramCount : Nat := 3

/-- The number of positional arguments passed to `read_and_clean_content` at
its call site, preprocess.py line 37: `read_and_clean_content(files,
function)`. -/
def read_and_clean_content_argCount : Nat := 2

/-- The body of `run_preprocess` after `gather_files` has produced a file
list (preprocess.py lines 35-49).  Python checks a call's argument count
against the callee's signature before running its body and raises
`TypeError` on a mismatch; line 37 is modelled accordingly, with the
well-arity branch performing the call as defined. -/
def run_preprocess_from_files (files : List String) (category : Nat)
    (trainDisk testDisk : Option StoredDs) (function : Bool) (features : Nat)
    (split : ℚ) (shuffle : List (List Nat) → List (List Nat))
    (fileText : String → List String) (fileRaw : String → List Nat) :
    RunResult :=
  match read_dataset trainDisk function features with
  | .error e => ⟨[.readDsOp], .error e⟩
  | .ok train =>
    match read_dataset testDisk function features with
    | .error e => ⟨[.readDsOp, .readDsOp], .error e⟩
    | .ok test =>
      if read_and_clean_content_argCount = read_and_clean_content_paramCount
      then
        match read_and_clean_content fileText fileRaw files function features
        with
        | .error e => ⟨[.readDsOp, .readDsOp, .readCleanOp], .error e⟩
        | .ok data0 =>
          let data := shuffle data0
          let p := splitter_stage data split
          let train2 := append_stage train category p.1
          let test2 := append_stage test category p.2
          let q := BinaryDs.rebalance split train2 test2
          ⟨[.readDsOp, .readDsOp, .readCleanOp, .shuffleOp, .splitOp,
            .setCatOp, .setCatOp, .rebalanceOp], .ok q⟩
      else ⟨[.readDsOp, .readDsOp, .readCleanOp], .error .typeError⟩

/-- `run_preprocess` (preprocess.py lines 10-49): gather the input files,
read and validate both stores, then run the remaining pipeline.  The walk
result and file contents are inputs; `shuffle` stands for the permutation
`random.shuffle` applies to the batch; `fuel` bounds the `gather_files`
loops, `none` meaning the run has not finished within that fuel. -/
def run_preprocess (fuel : Nat) (input_dir : String)
    (walk : List (List String)) (category : Nat)
    (trainDisk testDisk : Option StoredDs) (function : Bool) (features : Nat)
    (split : ℚ) (shuffle : List (List Nat) → List (List Nat))
    (fileText : String → List String) (fileRaw : String → List Nat) :
    Option RunResult :=
  match gather_files input_dir walk function fuel with
  | none => none
  | some (.error e) => some ⟨[.gatherOp], .error e⟩
  | some (.ok files) =>
    let r := run_preprocess_from_files files category trainDisk testDisk
      function features split shuffle fileText fileRaw
    some ⟨.gatherOp :: r.trace, r.outcome⟩

/-- The stage trace of an optional run result; a run that does not finish
has performed no observable completed-stage trace. -/
def traceOf : Option RunResult → List Op
  | none => []
  | some r => r.trace

/-! ## Supporting lemmas -/

lemma arity_mismatch :
    read_and_clean_content_argCount ≠ read_and_clean_content_paramCount := by
  decide

lemma run_from_files_trace_cases (files : List String) (category : Nat)
    (trainDisk testDisk : Option StoredDs) (function : Bool) (features : Nat)
    (split : ℚ) (shuffle : List (List Nat) → List (List Nat))
    (fileText : String → List String) (fileRaw : String → List Nat) :
    (run_preprocess_from_files files category trainDisk testDisk function
      features split shuffle fileText fileRaw).trace = [.readDsOp] ∨
    (run_preprocess_from_files files category trainDisk testDisk function
      features split shuffle fileText fileRaw).trace =
      [.readDsOp, .readDsOp] ∨
    (run_preprocess_from_files files category trainDisk testDisk function
      features split shuffle fileText fileRaw).trace =
      [.readDsOp, .readDsOp, .readCleanOp] := by
  unfold run_preprocess_from_files
  cases read_dataset trainDisk function features with
  | error e => exact Or.inl rfl
  | ok train =>
    cases read_dataset testDisk function features with
    | error e => exact Or.inr (Or.inl rfl)
    | ok test =>
      exact Or.inr (Or.inr rfl)

/-- C1: whenever both `read_dataset` calls succeed, the pipeline body raises
`TypeError` at the read-and-encode step (preprocess.py line 37 passes two
arguments to the three-parameter `read_and_clean_content`), and no
invocation of `run_preprocess` ever performs the shuffle, split, append or
rebalance stages. -/
theorem run_preprocess_typeerror_before_pipeline :
    (∀ (files : List String) (category : Nat)
      (trainDisk testDisk : Option StoredDs) (function : Bool)
      (features : Nat) (split : ℚ)
      (shuffle : List (List Nat) → List (List Nat))
      (fileText : String → List String) (fileRaw : String → List Nat)
      (train test : BinaryDs),
      read_dataset trainDisk function features = .ok train →
      read_dataset testDisk function features = .ok test →
      run_preprocess_from_files files category trainDisk testDisk function
        features split shuffle fileText fileRaw =
        ⟨[.readDsOp, .readDsOp, .readCleanOp], .error .typeError⟩) ∧
    (∀ (fuel : Nat) (input_dir : String) (walk : List (List String))
      (category : Nat) (trainDisk testDisk : Option StoredDs)
      (function : Bool) (features : Nat) (split : ℚ)
      (shuffle : List (List Nat) → List (List Nat))
      (fileText : String → List String) (fileRaw : String → List Nat),
      (traceOf (run_preprocess fuel input_dir walk category trainDisk
        testDisk function features split shuffle fileText
        fileRaw)).contains .shuffleOp = false ∧
      (traceOf (run_preprocess fuel input_dir walk category trainDisk
        testDisk function features split shuffle fileText
        fileRaw)).contains .splitOp = false ∧
      (traceOf (run_preprocess fuel input_dir walk category trainDisk
        testDisk function features split shuffle fileText
        fileRaw)).contains .setCatOp = false ∧
      (traceOf (run_preprocess fuel input_dir walk category trainDisk
        testDisk function features split shuffle fileText
        fileRaw)).contains .rebalanceOp = false) := by
  constructor
  · intro files category trainDisk testDisk function features split shuffle
      fileText fileRaw train test h1 h2
    unfold run_preprocess_from_files
    rw [h1, h2]
    rfl
  · intro fuel input_dir walk category trainDisk testDisk function features
      split shuffle fileText fileRaw
    cases hg : gather_files input_dir walk function fuel with
    | none => simp [run_preprocess, hg, traceOf]
    | some v =>
      cases v with
      | error e => simp [run_preprocess, hg, traceOf]
      | ok files =>
        have ht := run_from_files_trace_cases files category trainDisk
          testDisk function features split shuffle fileText fileRaw
        rcases ht with h | h | h <;> simp [run_preprocess, hg, traceOf, h]

/-- Witness for C1 at a concrete input: with fresh (absent) stores both
`read_dataset` calls succeed, and the pipeline body raises `TypeError` at
the read-and-encode step. -/
theorem run_preprocess_typeerror_before_pipeline_witness :
    run_preprocess_from_files ["x.txt"] 0 none none true 4 (1/2) id
      (fun _ => []) (fun _ => []) =
      ⟨[.readDsOp, .readDsOp, .readCleanOp], .error .typeError⟩ :=
  run_preprocess_typeerror_before_pipeline.1 ["x.txt"] 0 none none true 4
    (1/2) id (fun _ => []) (fun _ => [])
    ⟨some 4, some true, fun _ => []⟩ ⟨some 4, some true, fun _ => []⟩ rfl rfl

lemma gatherInner_none_of_lt (path : String) :
    ∀ (fuel i : Nat) (files : List String), i < files.length →
      gatherInner path fuel i files = none := by
  intro fuel
  induction fuel with
  | zero => intro i files h; simp [gatherInner, h]
  | succ n ih =>
    intro i files h
    rw [gatherInner, dif_pos h]
    exact ih (i + 1) _ (by simp [Nat.succ_lt_succ h])

lemma gatherInner_nil (path : String) (fuel : Nat) :
    gatherInner path fuel 0 [] = some [] := by
  cases fuel <;> rfl

lemma gatherOuter_none_iff (path : String) (fuel : Nat) :
    ∀ (walk : List (List String)) (files0 : List String),
      gatherOuter path fuel walk files0 = none ↔
        ∃ names ∈ walk, names ≠ [] := by
  intro walk
  induction walk with
  | nil => intro files0; simp [gatherOuter]
  | cons names rest ih =>
    intro files0
    cases names with
    | nil =>
      rw [gatherOuter, gatherInner_nil]
      rw [ih []]
      constructor
      · rintro ⟨n, hn, hne⟩; exact ⟨n, List.mem_cons_of_mem _ hn, hne⟩
      · rintro ⟨n, hn, hne⟩
        rcases List.mem_cons.mp hn with h | h
        · exact absurd h hne
        · exact ⟨n, h, hne⟩
    | cons a t =>
      rw [gatherOuter, gatherInner_none_of_lt path fuel 0 (a :: t) (by simp)]
      exact iff_of_true rfl ⟨a :: t, List.mem_cons_self _ _, by simp⟩

/-- C2: `gather_files` fails to terminate (returns `none` for every fuel)
exactly when some directory visited by the walk yields at least one file;
it terminates only when every visited directory contains zero files, since
the inner loop appends to the very list it iterates. -/
lemma gather_files_none_iff_outer_none (path : String)
    (walk : List (List String)) (function : Bool) (fuel : Nat) :
    gather_files path walk function fuel = none ↔
      gatherOuter path fuel walk [] = none := by
  unfold gather_files
  cases h : gatherOuter path fuel walk [] with
  | none => simp
  | some files =>
    simp only [reduceCtorEq, iff_false]
    split <;> split <;> simp

theorem gather_files_nonterminating_iff_some_dir_nonempty
    (path : String) (walk : List (List String)) (function : Bool)
    (fuel : Nat) :
    gather_files path walk function fuel = none ↔
      ∃ names ∈ walk, names ≠ [] :=
  (gather_files_none_iff_outer_none path walk function fuel).trans
    (gatherOuter_none_iff path fuel walk [])

/-- Witness for C2 at a concrete input: a walk yielding one file never
terminates, at fuel 9 in particular. -/
theorem gather_files_nonterminating_witness :
    gather_files "d" [["a.txt"]] true 9 = none :=
  (gather_files_nonterminating_iff_some_dir_nonempty "d" [["a.txt"]] true
    9).mpr ⟨["a.txt"], by simp, by simp⟩

/-- C3: in raw granularity mode the code does not partition the concatenated
byte stream into `features`-sized windows.  The comprehension at
preprocess.py lines 107-109 slices the list of per-file blobs and then
flattens the groups, which restores the original list of blobs: a single
5-byte file with `features = 2` comes back as one 5-byte example, not as
two 2-byte examples, and a 3-byte file plus a 4-byte file come back
whole, not as three 2-byte windows of the 7-byte stream. -/
theorem read_and_clean_content_raw_returns_whole_blobs :
    read_and_clean_content (fun _ => []) (fun _ => [1, 2, 3, 4, 5])
      ["a.bin"] false 2 = .ok [[1, 2, 3, 4, 5]] ∧
    [[1, 2, 3, 4, 5]] ≠ ([[1, 2], [3, 4]] : List (List Nat)) ∧
    read_and_clean_content (fun _ => [])
      (fun f => if f == "a.bin" then [1, 2, 3] else [4, 5, 6, 7])
      ["a.bin", "b.bin"] false 2 = .ok [[1, 2, 3], [4, 5, 6, 7]] ∧
    [[1, 2, 3], [4, 5, 6, 7]] ≠
      ([[1, 2], [3, 4], [5, 6]] : List (List Nat)) := by
  refine ⟨rfl, by decide, rfl, by decide⟩

/-- C4: a directory whose walk yields one file with the wrong extension
(`prog.bin` under function granularity, which expects `.txt`) does not make
`gather_files` raise `FileNotFoundError`: the call never terminates (the
result is `none` for every fuel).  Only a walk yielding zero files
terminates, and that is when `FileNotFoundError` is raised. -/
theorem gather_files_hangs_instead_of_notfound :
    (∀ fuel : Nat, gather_files "d" [["prog.bin"]] true fuel = none) ∧
    gather_files "d" [[], []] true 5 =
      some (.error .fileNotFoundError) := by
  constructor
  · intro fuel
    exact (gather_files_none_iff_outer_none "d" [["prog.bin"]] true fuel).mpr
      ((gatherOuter_none_iff "d" fuel [["prog.bin"]] []).mpr
        ⟨["prog.bin"], by simp, by simp⟩)
  · rfl

lemma read_dataset_mismatch_error (st : StoredDs) (function : Bool)
    (features : Nat)
    (h : st.function_granularity ≠ function ∨ st.features ≠ features) :
    read_dataset (some st) function features = .error .valueError := by
  rcases h with h | h
  · simp [read_dataset, h]
  · by_cases hg : st.function_granularity = function
    · simp [read_dataset, hg, h]
    · simp [read_dataset, hg]

/-- C5: a persisted store whose `features` or `function_granularity` differs
from the requested values makes `read_dataset` raise `ValueError`, and a run
whose train store mismatches aborts right after that first read, performing
no append, rebalance or write stage; a store whose read fails with
Not-Found (the file does not exist) is instead initialized with the
requested `features` and granularity. -/
theorem read_dataset_schema_mismatch_fatal_fresh_initialized :
    (∀ (st : StoredDs) (function : Bool) (features : Nat),
      st.function_granularity ≠ function ∨ st.features ≠ features →
      read_dataset (some st) function features = .error .valueError) ∧
    (∀ (function : Bool) (features : Nat),
      read_dataset none function features =
        .ok ⟨some features, some function, fun _ => []⟩) ∧
    (∀ (files : List String) (category : Nat) (st : StoredDs)
      (testDisk : Option StoredDs) (function : Bool) (features : Nat)
      (split : ℚ) (shuffle : List (List Nat) → List (List Nat))
      (fileText : String → List String) (fileRaw : String → List Nat),
      st.function_granularity ≠ function ∨ st.features ≠ features →
      run_preprocess_from_files files category (some st) testDisk function
        features split shuffle fileText fileRaw =
        ⟨[.readDsOp], .error .valueError⟩) := by
  refine ⟨read_dataset_mismatch_error, fun _ _ => rfl, ?_⟩
  intro files category st testDisk function features split shuffle fileText
    fileRaw h
  unfold run_preprocess_from_files
  rw [read_dataset_mismatch_error st function features h]

/-- Witness for C5 at a concrete input: a store persisted with
`features = 8` read back with `features = 16` raises `ValueError`, and the
pipeline aborts after the first read; a fresh store is initialized. -/
theorem read_dataset_schema_mismatch_fatal_witness :
    read_dataset (some ⟨8, false, fun _ => []⟩) false 16 =
      .error .valueError ∧
    read_dataset none false 16 = .ok ⟨some 16, some false, fun _ => []⟩ ∧
    run_preprocess_from_files ["x.bin"] 0 (some ⟨8, false, fun _ => []⟩)
      none false 16 (1/2) id (fun _ => []) (fun _ => []) =
      ⟨[.readDsOp], .error .valueError⟩ :=
  ⟨read_dataset_schema_mismatch_fatal_fresh_initialized.1
      ⟨8, false, fun _ => []⟩ false 16 (Or.inr (by decide)),
   read_dataset_schema_mismatch_fatal_fresh_initialized.2.1 false 16,
   read_dataset_schema_mismatch_fatal_fresh_initialized.2.2 ["x.bin"] 0
      ⟨8, false, fun _ => []⟩ none false 16 (1/2) id (fun _ => [])
      (fun _ => []) (Or.inr (by decide))⟩

/-- C6: for a shuffled batch of `N` new examples and a ratio in `(0,1)`, the
splitter routes exactly `⌊N * split⌋` examples to training and the remaining
`N - ⌊N * split⌋` to test, the two parts concatenate back to the shuffled
batch (so they partition the batch as multisets), and the appended store
keeps every previously persisted example, the formula touching only the new
batch. -/
theorem splitter_stage_floor_partition :
    ∀ (data shuffled : List (List Nat)) (split : ℚ),
      0 < split → split < 1 → shuffled.Perm data →
      ((splitter_stage shuffled split).1.length : ℤ) =
        ⌊(shuffled.length : ℚ) * split⌋ ∧
      ((splitter_stage shuffled split).2.length : ℤ) =
        (shuffled.length : ℤ) - ⌊(shuffled.length : ℚ) * split⌋ ∧
      (splitter_stage shuffled split).1 ++ (splitter_stage shuffled split).2 =
        shuffled ∧
      ((splitter_stage shuffled split).1 ++
        (splitter_stage shuffled split).2).Perm data ∧
      (∀ (store : BinaryDs) (category : Nat),
        (append_stage store category
          (splitter_stage shuffled split).1).get category =
        store.get category ++ (splitter_stage shuffled split).1) := by
  intro data shuffled split h1 h2 hperm
  have h0 : (0 : ℤ) ≤ ⌊(shuffled.length : ℚ) * split⌋ :=
    Int.floor_nonneg.mpr (mul_nonneg (Nat.cast_nonneg _) h1.le)
  have hle : ⌊(shuffled.length : ℚ) * split⌋ ≤ (shuffled.length : ℤ) := by
    have := Int.floor_le_floor
      (mul_le_of_le_one_right (Nat.cast_nonneg (α := ℚ) shuffled.length) h2.le)
    simpa using this
  have hsiN : (⌊(shuffled.length : ℚ) * split⌋).toNat ≤ shuffled.length := by
    exact_mod_cast Int.toNat_le.mpr hle
  refine ⟨?_, ?_, ?_, ?_, ?_⟩
  · show (((shuffled.take _).length : ℕ) : ℤ) = _
    rw [List.length_take, min_eq_left hsiN, Int.toNat_of_nonneg h0]
  · show (((shuffled.drop _).length : ℕ) : ℤ) = _
    rw [List.length_drop, Nat.cast_sub hsiN, Int.toNat_of_nonneg h0]
  · exact List.take_append_drop _ shuffled
  · show ((shuffled.take _) ++ (shuffled.drop _)).Perm data
    rw [List.take_append_drop]; exact hperm
  · intro store category
    simp [append_stage, BinaryDs.set, BinaryDs.get]

/-- Witness for C6 at a concrete input: a 3-element batch with ratio `1/2`
sends `⌊3/2⌋ = 1` example to training and `2` to test, partitioning the
shuffled batch. -/
theorem splitter_stage_floor_partition_witness :
    ((splitter_stage [[2], [1], [3]] (1/2)).1.length : ℤ) =
      ⌊((3 : ℕ) : ℚ) * (1/2)⌋ ∧
    ((splitter_stage [[2], [1], [3]] (1/2)).2.length : ℤ) =
      ((3 : ℕ) : ℤ) - ⌊((3 : ℕ) : ℚ) * (1/2)⌋ ∧
    (splitter_stage [[2], [1], [3]] (1/2)).1 ++
      (splitter_stage [[2], [1], [3]] (1/2)).2 = [[2], [1], [3]] ∧
    ((splitter_stage [[2], [1], [3]] (1/2)).1 ++
      (splitter_stage [[2], [1], [3]] (1/2)).2).Perm [[1], [2], [3]] ∧
    (∀ (store : BinaryDs) (category : Nat),
      (append_stage store category
        (splitter_stage [[2], [1], [3]] (1/2)).1).get category =
      store.get category ++ (splitter_stage [[2], [1], [3]] (1/2)).1) :=
  splitter_stage_floor_partition [[1], [2], [3]] [[2], [1], [3]] (1/2)
    (by norm_num) (by norm_num) (by decide)

lemma traverseOpt_length {α : Type} :
    ∀ (xs : List (Option α)) (r : List α),
      traverseOpt xs = some r → r.length = xs.length := by
  intro xs
  induction xs with
  | nil =>
    intro r h
    simp [traverseOpt] at h
    simp [← h]
  | cons x t ih =>
    intro r h
    cases x with
    | none => simp [traverseOpt] at h
    | some a =>
      rw [traverseOpt] at h
      rcases Option.map_eq_some'.mp h with ⟨r2, hr2, hcons⟩
      subst hcons
      simp [ih r2 hr2]

/-- C7: in function granularity mode every retained line becomes exactly one
example (comma-stripping then hex-decoding), the line `"DE,AD,C0,DE"`
encodes to the 4-byte example `DE AD C0 DE`, and the lines `""`, `"[]"` and
`"FF,"` are skipped during reading, hence absent from the encoded output. -/
theorem function_mode_encodes_each_retained_line :
    (∀ (ls : List String) (es : List (List Nat)),
      encode_opcodes ls = .ok es → es.length = ls.length) ∧
    read_files_function
      (fun _ => ["DE,AD,C0,DE\n", "\n", "[]\n", "FF,\n"]) ["f.txt"] =
      ["DE,AD,C0,DE"] ∧
    encode_opcodes ["DE,AD,C0,DE"] = .ok [[222, 173, 192, 222]] ∧
    read_and_clean_content
      (fun _ => ["DE,AD,C0,DE\n", "\n", "[]\n", "FF,\n"]) (fun _ => [])
      ["f.txt"] true 4 = .ok [[222, 173, 192, 222]] := by
  refine ⟨?_, rfl, rfl, rfl⟩
  intro ls es h
  unfold encode_opcodes at h
  cases ht : traverseOpt ((ls.map removeCommas).map pyFromhex) with
  | none => rw [ht] at h; cases h
  | some r =>
    rw [ht] at h
    cases h
    simpa using traverseOpt_length _ _ ht

/-- Witness for C7: the one-example-per-retained-line law applied at the
concrete line `"AB"`. -/
theorem function_mode_encodes_each_retained_line_witness :
    ([[171]] : List (List Nat)).length = (["AB"] : List String).length :=
  function_mode_encodes_each_retained_line.1 ["AB"] [[171]] rfl

/-- C8: the append step extends rather than replaces: the sequence held for
the updated category afterwards is exactly the previously stored sequence
followed by the run's new examples, so every persisted example is retained
in its original order as a prefix. -/
theorem append_stage_extends_category :
    ∀ (store : BinaryDs) (category : Nat) (new : List (List Nat)),
      (append_stage store category new).get category =
        store.get category ++ new := by
  intro store category new
  simp [append_stage, BinaryDs.set, BinaryDs.get]

/-- Witness for C8 at a concrete input: a store holding `[[7]]` for category
`3` extended with `[[9]]` holds `[[7], [9]]`. -/
theorem append_stage_extends_category_witness :
    (append_stage ⟨some 1, some false, fun c => if c = 3 then [[7]] else []⟩
      3 [[9]]).get 3 = [[7]] ++ [[9]] :=
  append_stage_extends_category
    ⟨some 1, some false, fun c => if c = 3 then [[7]] else []⟩ 3 [[9]]

/-- C9: no invocation of `run_preprocess` ever performs a `write()` on
either store: the function body (preprocess.py lines 32-49) ends with
`train.rebalance(test)` and contains no `write` call, so no trace of any
run, for any input and any fuel, contains the write stage. -/
theorem run_preprocess_never_writes :
    ∀ (fuel : Nat) (input_dir : String) (walk : List (List String))
      (category : Nat) (trainDisk testDisk : Option StoredDs)
      (function : Bool) (features : Nat) (split : ℚ)
      (shuffle : List (List Nat) → List (List Nat))
      (fileText : String → List String) (fileRaw : String → List Nat),
      (traceOf (run_preprocess fuel input_dir walk category trainDisk
        testDisk function features split shuffle fileText
        fileRaw)).contains .writeOp = false := by
  intro fuel input_dir walk category trainDisk testDisk function features
    split shuffle fileText fileRaw
  cases hg : gather_files input_dir walk function fuel with
  | none => simp [run_preprocess, hg, traceOf]
  | some v =>
    cases v with
    | error e => simp [run_preprocess, hg, traceOf]
    | ok files =>
      have ht := run_from_files_trace_cases files category trainDisk
        testDisk function features split shuffle fileText fileRaw
      rcases ht with h | h | h <;> simp [run_preprocess, hg, traceOf, h]

lemma round_nonneg_of_nonneg (x : ℚ) (hx : 0 ≤ x) : 0 ≤ round x := by
  rw [round_eq]
  exact Int.floor_nonneg.mpr (by linarith)

lemma targetCount_le_total (r : ℚ) (total : Nat) (h2 : r < 1) :
    targetCount r total ≤ total := by
  unfold targetCount
  have hx : (total : ℚ) * r ≤ (total : ℚ) :=
    mul_le_of_le_one_right (Nat.cast_nonneg _) h2.le
  have hlt : round ((total : ℚ) * r) < (total : ℤ) + 1 := by
    rw [round_eq]
    have : (total : ℚ) * r + 1 / 2 < (((total : ℤ) + 1 : ℤ) : ℚ) := by
      push_cast; linarith
    exact Int.floor_lt.mpr this
  exact Int.toNat_le.mpr (by omega)

lemma targetCount_cast (r : ℚ) (total : Nat) (h1 : 0 < r) :
    ((targetCount r total : ℕ) : ℤ) = round ((total : ℚ) * r) := by
  unfold targetCount
  exact Int.toNat_of_nonneg
    (round_nonneg_of_nonneg _ (mul_nonneg (Nat.cast_nonneg _) h1.le))

lemma take_drop_move_perm {α : Type} (l k : List α) (n : Nat) :
    (l.take n ++ (k ++ l.drop n)).Perm (l ++ k) := by
  have h1 : (l.take n ++ (k ++ l.drop n)).Perm
      (l.take n ++ (l.drop n ++ k)) :=
    List.Perm.append_left _ List.perm_append_comm
  have h2 : l.take n ++ (l.drop n ++ k) = l ++ k := by
    rw [← List.append_assoc, List.take_append_drop]
  rw [h2] at h1
  exact h1

lemma drop_take_end_perm {α : Type} (l k : List α) (m : Nat) :
    ((l ++ k.drop m) ++ k.take m).Perm (l ++ k) := by
  rw [List.append_assoc]
  have h1 : (l ++ (k.drop m ++ k.take m)).Perm
      (l ++ (k.take m ++ k.drop m)) :=
    List.Perm.append_left _ List.perm_append_comm
  rw [List.take_append_drop] at h1
  exact h1

lemma rebalanceCat_perm (r : ℚ) (tr te : List (List Nat)) :
    ((rebalanceCat r tr te).1 ++ (rebalanceCat r tr te).2).Perm (tr ++ te) := by
  unfold rebalanceCat
  split
  · exact take_drop_move_perm tr te _
  · exact drop_take_end_perm tr te _

lemma rebalanceCat_fst_length (r : ℚ) (tr te : List (List Nat))
    (h2 : r < 1) :
    (rebalanceCat r tr te).1.length =
      targetCount r (tr.length + te.length) := by
  have htot := targetCount_le_total r (tr.length + te.length) h2
  unfold rebalanceCat
  split
  · rename_i h
    simp [List.length_take]
    omega
  · rename_i h
    simp [List.length_drop]
    omega

/-- C10: `rebalance` moves whole examples between the paired stores without
duplicating or dropping any (the concatenation of the two per-category
sequences afterwards is a permutation of the one before, so the total count
per category is unchanged), and afterwards the category's train-ratio is as
close to the configured target ratio as any achievable integer train count
allows. -/
theorem rebalance_conserves_and_minimizes_ratio :
    ∀ (r : ℚ) (train test : BinaryDs) (cat : Nat),
      0 < r → r < 1 →
      (((BinaryDs.rebalance r train test).1.get cat ++
        (BinaryDs.rebalance r train test).2.get cat).Perm
        (train.get cat ++ test.get cat)) ∧
      ((BinaryDs.rebalance r train test).1.get cat).length +
        ((BinaryDs.rebalance r train test).2.get cat).length =
        (train.get cat).length + (test.get cat).length ∧
      (∀ k : ℕ, k ≤ (train.get cat).length + (test.get cat).length →
        |(((BinaryDs.rebalance r train test).1.get cat).length : ℚ) /
            (((train.get cat).length + (test.get cat).length : ℕ) : ℚ) - r| ≤
          |(k : ℚ) /
            (((train.get cat).length + (test.get cat).length : ℕ) : ℚ) - r|) := by
  intro r train test cat h1 h2
  have hget1 : (BinaryDs.rebalance r train test).1.get cat =
      (rebalanceCat r (train.get cat) (test.get cat)).1 := rfl
  have hget2 : (BinaryDs.rebalance r train test).2.get cat =
      (rebalanceCat r (train.get cat) (test.get cat)).2 := rfl
  have hperm := rebalanceCat_perm r (train.get cat) (test.get cat)
  have hlen := rebalanceCat_fst_length r (train.get cat) (test.get cat) h2
  refine ⟨by rw [hget1, hget2]; exact hperm, ?_, ?_⟩
  · have := hperm.length_eq
    simp only [List.length_append] at this
    rw [hget1, hget2]
    exact this
  · intro k hk
    rw [hget1, hlen]
    rcases Nat.eq_zero_or_pos ((train.get cat).length + (test.get cat).length)
      with hz | hpos
    · have hk0 : k = 0 := by omega
      subst hk0
      rw [hz]
      simp [targetCount]
    · have hT : (0 : ℚ) < (((train.get cat).length +
          (test.get cat).length : ℕ) : ℚ) := by exact_mod_cast hpos
      have hkey : |((targetCount r ((train.get cat).length +
          (test.get cat).length) : ℕ) : ℚ) -
            (((train.get cat).length + (test.get cat).length : ℕ) : ℚ) * r| ≤
          |(k : ℚ) - (((train.get cat).length +
            (test.get cat).length : ℕ) : ℚ) * r| := by
        have hc : ((targetCount r ((train.get cat).length +
            (test.get cat).length) : ℕ) : ℚ) =
            ((round ((((train.get cat).length +
              (test.get cat).length : ℕ) : ℚ) * r) : ℤ) : ℚ) := by
          exact_mod_cast congrArg (fun z : ℤ => (z : ℚ))
            (targetCount_cast r ((train.get cat).length +
              (test.get cat).length) h1)
        rw [hc, abs_sub_comm]
        calc |(((train.get cat).length + (test.get cat).length : ℕ) : ℚ) * r -
              round ((((train.get cat).length +
                (test.get cat).length : ℕ) : ℚ) * r)| ≤
            |(((train.get cat).length + (test.get cat).length : ℕ) : ℚ) * r -
              ((k : ℤ) : ℚ)| :=
              round_le ((((train.get cat).length +
                (test.get cat).length : ℕ) : ℚ) * r) (k : ℤ)
          _ = |(k : ℚ) - (((train.get cat).length +
              (test.get cat).length : ℕ) : ℚ) * r| := by
              rw [abs_sub_comm]; norm_num
      have hdiv : ∀ a : ℚ, a / (((train.get cat).length +
          (test.get cat).length : ℕ) : ℚ) - r =
          (a - (((train.get cat).length + (test.get cat).length : ℕ) : ℚ) * r) /
            (((train.get cat).length + (test.get cat).length : ℕ) : ℚ) := by
        intro a
        rw [sub_div, mul_div_cancel_left₀ _ (ne_of_gt hT)]
      rw [hdiv, hdiv, abs_div, abs_div, abs_of_pos hT]
      exact div_le_div_of_nonneg_right hkey hT.le

/-- Witness for C10 at a concrete input: with target ratio `1/2` and a
category holding 4 train and 1 test examples, rebalancing preserves the five
examples as a multiset and the new train count (3 of 5) is at least as close
to the ratio as the achievable count 5. -/
theorem rebalance_conserves_and_minimizes_ratio_witness :
    (((BinaryDs.rebalance (1/2)
        ⟨some 1, some true, fun _ => [[1], [2], [3], [4]]⟩
        ⟨some 1, some true, fun _ => [[5]]⟩).1.get 0 ++
      (BinaryDs.rebalance (1/2)
        ⟨some 1, some true, fun _ => [[1], [2], [3], [4]]⟩
        ⟨some 1, some true, fun _ => [[5]]⟩).2.get 0).Perm
      ((⟨some 1, some true, fun _ => [[1], [2], [3], [4]]⟩ :
        BinaryDs).get 0 ++
        (⟨some 1, some true, fun _ => [[5]]⟩ : BinaryDs).get 0)) ∧
    (∀ k : ℕ, k ≤ 5 →
      |(((BinaryDs.rebalance (1/2)
          ⟨some 1, some true, fun _ => [[1], [2], [3], [4]]⟩
          ⟨some 1, some true, fun _ => [[5]]⟩).1.get 0).length : ℚ) /
          ((5 : ℕ) : ℚ) - 1/2| ≤ |(k : ℚ) / ((5 : ℕ) : ℚ) - 1/2|) :=
  ⟨(rebalance_conserves_and_minimizes_ratio (1/2)
      ⟨some 1, some true, fun _ => [[1], [2], [3], [4]]⟩
      ⟨some 1, some true, fun _ => [[5]]⟩ 0 (by norm_num) (by norm_num)).1,
   (rebalance_conserves_and_minimizes_ratio (1/2)
      ⟨some 1, some true, fun _ => [[1], [2], [3], [4]]⟩
      ⟨some 1, some true, fun _ => [[5]]⟩ 0 (by norm_num) (by norm_num)).2.2⟩

end Preprocess
